import Mathlib

/-!
# A verification development for `jetstream.py`

`jetstream.py` downloads gridded atmospheric wind-component data (GFS via
pydap, or ERA averages from a local netCDF file), computes a wind-speed
field, shifts the longitude grid, and renders/saves maps in a batch loop.

This file gives a shallow embedding of the script:

* numbers are modelled exactly: longitudes/latitudes as `ℚ` (the float
  coordinates in the data are decimal rationals), wind values as `ℝ`
  (with `Real.sqrt` standing for `np.sqrt`'s pointwise square root);
* 2-d numpy arrays are `List (List ·)` (row-major: rows = latitudes,
  columns = longitudes), 3-d arrays are lists of 2-d arrays;
* fallible operations (numpy shape errors, `IndexError`, the `ValueError`
  of `basemap.shiftgrid`) return `Option`/`Except`;
* the file-writing side effects of the batch drivers are modelled as the
  trace of file names passed to `savefig`, together with the first
  uncaught exception, if any.
-/

namespace Jetstream

/-- A 2-d array, stored as a list of rows. -/
abbrev Mat (α : Type) := List (List α)

/-- The shape of a 2-d array: the list of its row lengths. -/
def matShape (A : Mat α) : List Nat := A.map List.length

/-- `A` is an `r × c` rectangular array. -/
def isShape (A : Mat α) (r c : Nat) : Prop :=
  A.length = r ∧ ∀ row ∈ A, row.length = c

/-- Entry access `A[i][j]`, `none` when out of range. -/
def mget (A : Mat α) (i j : Nat) : Option α :=
  A[i]?.bind fun row => row[j]?

/-- Elementwise map over a 2-d array. -/
def mapMat (f : α → β) (A : Mat α) : Mat β :=
  A.map fun row => row.map f

/-- Elementwise combination of two 2-d arrays (numpy broadcasting is not
needed by the script: it only combines arrays of identical shape). -/
def zipMat (f : α → β → γ) (A : Mat α) (B : Mat β) : Mat γ :=
  List.zipWith (List.zipWith f) A B

/-- Elementwise sum `A + B`, as in `ndarray.__add__`/`__iadd__`. -/
def addMat (A B : Mat ℝ) : Mat ℝ := zipMat (· + ·) A B

/-- Scalar multiple `c * A`. -/
noncomputable def smulMat (c : ℝ) (A : Mat ℝ) : Mat ℝ := mapMat (fun x => c * x) A

/-- Scalar division `A / c`. -/
noncomputable def divMat (A : Mat ℝ) (c : ℝ) : Mat ℝ := mapMat (fun x => x / c) A

/-- Elementwise square `A**2`. -/
noncomputable def matSq (A : Mat ℝ) : Mat ℝ := mapMat (fun x => x ^ 2) A

/-- Elementwise square root: `np.sqrt(A)` (one argument). -/
noncomputable def mapSqrtMat (A : Mat ℝ) : Mat ℝ := mapMat Real.sqrt A

/-- `np.sqrt(x, out)`: the two-argument form of the ufunc, as used on
line 98 of `jetstream.py`.  The second positional argument is the `out`
array; its *values* are overwritten and do not enter the result, which is
the elementwise square root of `x` alone.  numpy requires the shapes of
`x` and `out` to agree, else it raises (modelled as `none`). -/
noncomputable def npSqrtOut (x outA : Mat ℝ) : Option (Mat ℝ) :=
  if matShape x = matShape outA then some (mapSqrtMat x) else none

/-- Python/numpy integer indexing `xs[i]`: non-negative indices from the
front, indices in `[-len, 0)` from the back, anything else raises
`IndexError` (modelled as `none`). -/
def pyIndex (xs : List α) (i : Int) : Option α :=
  if 0 ≤ i then xs[i.toNat]?
  else if -(xs.length : Int) ≤ i then xs[xs.length - i.natAbs]?
  else none

/-! ## `mpl_toolkits.basemap.shiftgrid`

Modelled from the basemap source, specialised to the only call pattern the
script uses: `shiftgrid(lon0, datain, lonsin, start=False)` with the
default `cyclic=360`.  An empty `lonsin` (whose `lonsin[-1]` raises) and a
`datain` whose rows do not span the longitude grid (whose slice
assignments raise) are modelled as `none`, as is the explicit
`ValueError` raised when `lon0` is outside the range of `lonsin`. -/

/-- `np.fabs` on an exact rational. -/
def qabs (x : ℚ) : ℚ := if x < 0 then -x else x

/-- `start_idx` of `shiftgrid`: `0` when the grid is not cyclic
(`|lonsin[-1] - lonsin[0] - 360| > 1e-4`), else `1` (the duplicated cyclic
point is dropped). -/
def shiftStart (lonsin : List ℚ) : Nat :=
  if qabs (lonsin.getLastD 0 - lonsin.headD 0 - 360) > 1/10000 then 0 else 1

/-- `np.argmin` over the distances `|x - lon0|`: returns the first index
attaining the minimum, together with the minimum, `none` on `[]`. -/
def argminAbs (lon0 : ℚ) : List ℚ → Option (Nat × ℚ)
  | [] => none
  | x :: xs =>
    match argminAbs lon0 xs with
    | none => some (0, qabs (x - lon0))
    | some (i, m) =>
      if qabs (x - lon0) ≤ m then some (0, qabs (x - lon0)) else some (i + 1, m)

/-- `i0 = np.argmin(np.fabs(lonsin - lon0))` of `shiftgrid`. -/
def shiftI0 (lon0 : ℚ) (lonsin : List ℚ) : Nat :=
  ((argminAbs lon0 lonsin).map Prod.fst).getD 0

/-- `basemap.shiftgrid(lon0, datain, lonsin, start=False)`: rotates the
longitude grid so that it ends at `lon0`, subtracting the cyclic period
360 from the wrapped leading part, and rotates the columns of `datain` by
the same amount. -/
def shiftgrid (lon0 : ℚ) (datain : Mat ℝ) (lonsin : List ℚ) :
    Option (Mat ℝ × List ℚ) :=
  if lonsin.isEmpty then none
  else if datain.any (fun row => row.length ≠ lonsin.length) then none
  else if lon0 < lonsin.headD 0 ∨ lonsin.getLastD 0 < lon0 then none
  else
    let startIdx := shiftStart lonsin
    let i0 := shiftI0 lon0 lonsin
    let lonsout := (lonsin.drop i0).map (· - 360) ++ (lonsin.drop startIdx).take i0
    let dataout := datain.map fun row => row.drop i0 ++ (row.drop startIdx).take i0
    some (dataout, lonsout)

/-- The index into the source grid from which column `j` of the shifted
grid is taken. -/
def shiftIdx (startIdx i0 n j : Nat) : Nat :=
  if j < n - i0 then i0 + j else startIdx + (j - (n - i0))

/-! ## The data holder and the two loaders -/

/-- The state stored by a `JetStreamData` object after `load`:
`self.lon, self.lat, self.windspeed`. -/
structure JSData where
  lon : List ℚ
  lat : List ℚ
  windspeed : Mat ℝ

/-- The arrays `GFSJetStreamData.load` reads from the remote GFS dataset:
`lon = c.ugrdtrop.lon[:]`, `lat = c.ugrdtrop.lat[:]`, and the 2-d
time/level slices `u = c.ugrdtrop.ugrdtrop[0][0]`,
`v = c.vgrdtrop.vgrdtrop[0][0]` (units m/s). -/
structure GFSSource where
  lon : List ℚ
  lat : List ℚ
  u : Mat ℝ
  v : Mat ℝ

/-- Line 98 of `jetstream.py`:
`windspeed = 3.6 * np.sqrt(u_component**2, v_component**2)`.
Note that `v_component**2` is the `out` argument of `np.sqrt`. -/
noncomputable def gfsRawWindspeed (u v : Mat ℝ) : Option (Mat ℝ) :=
  (npSqrtOut (matSq u) (matSq v)).map (smulMat 3.6)

/-- `GFSJetStreamData.load` (lines 91–101): compute the wind-speed field,
shift the grid from 0..360 to -180..180, store `lon`, `lat`,
`windspeed`. -/
noncomputable def gfsLoad (src : GFSSource) : Option JSData :=
  (gfsRawWindspeed src.u src.v).bind fun w =>
    (shiftgrid 180 w src.lon).map fun p => ⟨p.2, src.lat, p.1⟩

/-- The arrays `ERAJetStreamData.load` reads from
`era-december-averages.nc`: 1-d `longitude` and `latitude`, and the 3-d
(time × lat × lon) wind components `u`, `v`. -/
structure ERASource where
  lon : List ℚ
  lat : List ℚ
  u : List (Mat ℝ)
  v : List (Mat ℝ)

/-- Lines 117–118 of `jetstream.py`:
`windspeed = 3.6 * np.sqrt(data.variables['u'][:]**2 + data.variables['v'][:]**2)`
over the full 3-d arrays; numpy raises unless the shapes agree. -/
noncomputable def eraWindspeed3 (u v : List (Mat ℝ)) : Option (List (Mat ℝ)) :=
  if u.map matShape = v.map matShape then
    some ((u.zip v).map fun p => smulMat 3.6 (mapSqrtMat (addMat (matSq p.1) (matSq p.2))))
  else none

/-- Lines 117–119: the 3-d wind-speed array restricted to the time slice
`windspeed[self.year - 1979]` (Python indexing, so negative indices count
from the end). -/
noncomputable def eraSlice (src : ERASource) (year : Int) : Option (Mat ℝ) :=
  (eraWindspeed3 src.u src.v).bind fun w3 => pyIndex w3 (year - 1979)

/-- `ERAJetStreamData.load` (lines 110–122): compute the wind-speed field,
take the time slice for `year`, shift the grid, store `lon`, `lat`,
`windspeed`. -/
noncomputable def eraLoad (src : ERASource) (year : Int) : Option JSData :=
  (eraSlice src year).bind fun w =>
    (shiftgrid 180 w src.lon).map fun p => ⟨p.2, src.lat, p.1⟩

/-! ## The batch drivers

`plot_gfs_average` (lines 125–137) loads one GFS dataset per day of
`days = range(1, 17)`, accumulates the wind speeds of datasets 1..15 into
the first dataset's `windspeed` with `+=`, divides by `len(days)`, and
saves one image `output/gfs.png`.

`plot_era_average` (lines 140–145) loads one ERA dataset per year of
`range(1979, 2014)` and saves `output/<year>.png` for it.

The drivers are modelled over an abstract fallible loader (the network /
file reads); the rendering is a pure function of the data and is not
modelled — only the trace of file names handed to `savefig`, and the
first uncaught exception. -/

/-- `days = range(1, 17)`. -/
def gfsDays : List Nat := List.range' 1 16

/-- One iteration of the loop on lines 132–133:
`streamdata[0].windspeed += data.windspeed`.  The state is the list
`streamdata`; only the head's `windspeed` is updated. -/
noncomputable def accumStep (st : List JSData) (d : JSData) : List JSData :=
  match st with
  | [] => []
  | d0 :: rest => { d0 with windspeed := addMat d0.windspeed d.windspeed } :: rest

/-- The accumulation loop (lines 132–133):
`for data in streamdata[1:]: streamdata[0].windspeed += data.windspeed`. -/
noncomputable def accumLoop (st : List JSData) : List JSData :=
  (st.drop 1).foldl accumStep st

/-- Line 134:
`streamdata[0].windspeed = streamdata[0].windspeed / float(len(days))`. -/
noncomputable def divideStep (st : List JSData) : List JSData :=
  match st with
  | [] => []
  | d0 :: rest => { d0 with windspeed := divMat d0.windspeed (gfsDays.length : ℝ) } :: rest

/-- The data transformation of `plot_gfs_average` (lines 132–134), acting
on the list of loaded datasets. -/
noncomputable def plotGfsAverageData (st : List JSData) : List JSData :=
  divideStep (accumLoop st)

/-- The elementwise sum of a list of equally-shaped fields. -/
def matSum : List (Mat ℝ) → Mat ℝ
  | [] => []
  | [m] => m
  | m :: ms => addMat m (matSum ms)

/-- The elementwise arithmetic mean of a list of fields: their sum divided
by how many there are. -/
noncomputable def matMean (ms : List (Mat ℝ)) : Mat ℝ :=
  divMat (matSum ms) (ms.length : ℝ)

/-- The first loop of `plot_gfs_average` (lines 128–131): load the
datasets for the given days in order; the first failing load aborts the
whole driver. -/
def loadSeq (load : Nat → Except ε JSData) : List Nat → Except ε (List JSData)
  | [] => .ok []
  | d :: ds =>
    match load d with
    | .error e => .error e
    | .ok x => (loadSeq load ds).map (x :: ·)

/-- The observable run of `plot_gfs_average`: the file names saved and the
first uncaught exception.  All loads happen before the single
`savefig('output/gfs.png')`, so a failing load writes nothing. -/
def runGfs (load : Nat → Except ε JSData) : List String × Option ε :=
  match loadSeq load gfsDays with
  | .error e => ([], some e)
  | .ok _ => (["output/gfs.png"], none)

/-- `range(1979, 2014)`. -/
def eraYears : List Int := (List.range 35).map fun k : Nat => 1979 + (k : Int)

/-- The file name written for one year: `'output/{}.png'.format(year)`. -/
def eraFileName (year : Int) : String := "output/" ++ toString year ++ ".png"

/-- The loop body of `plot_era_average`: load, render, save, close — one
file per successful iteration; a raised exception leaves the loop and
propagates, so no later file is written. -/
def runEraGo (load : Int → Except ε JSData) : List Int → List String × Option ε
  | [] => ([], none)
  | y :: ys =>
    match load y with
    | .error e => ([], some e)
    | .ok _ =>
      let r := runEraGo load ys
      (eraFileName y :: r.1, r.2)

/-- The observable run of `plot_era_average` over `range(1979, 2014)`. -/
def runEra (load : Int → Except ε JSData) : List String × Option ε :=
  runEraGo load eraYears

/-! ## The class structure

`JetStreamData` is the base class; its `__init__` (line 72) calls
`self.load()` unconditionally, but the class body defines only
`__init__` and `create_map` — no `load`.  `GFSJetStreamData` and
`ERAJetStreamData` subclass it and each define `__init__` and `load`. -/

/-- The three classes of `jetstream.py` that hold jet-stream data. -/
inductive PyClass
  | jetStreamData
  | gfsJetStreamData
  | eraJetStreamData
deriving DecidableEq

/-- The method names each class body defines itself. -/
def ownMethods : PyClass → List String
  | .jetStreamData => ["__init__", "create_map"]
  | .gfsJetStreamData => ["__init__", "load"]
  | .eraJetStreamData => ["__init__", "load"]

/-- The method resolution order, from each `class C(Base)` header:
`GFSJetStreamData(JetStreamData)` and `ERAJetStreamData(JetStreamData)`. -/
def mro : PyClass → List PyClass
  | .jetStreamData => [.jetStreamData]
  | .gfsJetStreamData => [.gfsJetStreamData, .jetStreamData]
  | .eraJetStreamData => [.eraJetStreamData, .jetStreamData]

/-- Attribute lookup `self.name` on an instance of `c`: the first class of
the MRO whose body defines `name`, `none` when the lookup raises
`AttributeError`. -/
def resolveMethod (c : PyClass) (name : String) : Option PyClass :=
  (mro c).find? fun k => name ∈ ownMethods k

/-- The failure mode of constructing an instance. -/
inductive PyError
  | attributeError
deriving DecidableEq

/-- Constructing an instance of `c` runs an `__init__` that calls
`self.load()` (line 72 for the base class; lines 89 and 108 for the
subclasses): the call raises `AttributeError` unless `load` resolves. -/
def constructInit (c : PyClass) : Except PyError Unit :=
  match resolveMethod c "load" with
  | none => .error .attributeError
  | some _ => .ok ()

/-- The 0–360° longitude convention of the source grids: strictly
increasing coordinates, all in `[0, 360)`. -/
def lonConv0to360 (lons : List ℚ) : Prop :=
  List.Sorted (· < ·) lons ∧ ∀ x ∈ lons, 0 ≤ x ∧ x < 360

/-- The −180–180° longitude convention of the stored grids: every
coordinate lies in `[-180, 180]`. -/
def lonConvPM180 (lons : List ℚ) : Prop :=
  ∀ x ∈ lons, -180 ≤ x ∧ x ≤ 180

/-- The stored field of `d` is the field `W` with its columns permuted by
the same index map that produced the stored longitudes from the source
longitudes `lons` (wrapped entries shifted down by the cyclic period
360°). -/
def shiftConsistent (W : Mat ℝ) (lons : List ℚ) (d : JSData) : Prop :=
  ∃ f : Nat → Nat,
    (∀ j : Nat, j < d.lon.length → ∃ x, lons[f j]? = some x ∧
      (d.lon[j]? = some (x - 360) ∨ d.lon[j]? = some x))
    ∧ ∀ (i j : Nat), j < d.lon.length → mget d.windspeed i j = mget W i (f j)

/-! ## Generic list and matrix lemmas -/

theorem zipWith_getElem? (f : α → β → γ) :
    ∀ (as : List α) (bs : List β) (i : Nat),
      (List.zipWith f as bs)[i]? = as[i]?.bind fun a => bs[i]?.map (f a)
  | [], _, _ => by simp
  | _ :: _, [], _ => by simp
  | a :: as, b :: bs, 0 => by simp
  | a :: as, b :: bs, i + 1 => by
    simpa using zipWith_getElem? f as bs i

theorem zipWith_assoc (f : α → α → α)
    (hf : ∀ a b c, f (f a b) c = f a (f b c)) :
    ∀ as bs cs : List α,
      List.zipWith f (List.zipWith f as bs) cs = List.zipWith f as (List.zipWith f bs cs)
  | [], _, _ => by simp
  | _ :: _, [], _ => by simp
  | _ :: _, _ :: _, [] => by simp
  | a :: as, b :: bs, c :: cs => by
    simp only [List.zipWith_cons_cons, hf]
    exact congrArg _ (zipWith_assoc f hf as bs cs)

theorem mget_mapMat (f : α → β) (A : Mat α) (i j : Nat) :
    mget (mapMat f A) i j = (mget A i j).map f := by
  simp only [mget, mapMat, List.getElem?_map]
  cases A[i]? with
  | none => rfl
  | some row => simp [List.getElem?_map]

theorem mget_zipMat (f : α → β → γ) (A : Mat α) (B : Mat β) (i j : Nat) :
    mget (zipMat f A B) i j
      = (mget A i j).bind fun a => (mget B i j).map (f a) := by
  simp only [mget, zipMat, zipWith_getElem?]
  cases hA : A[i]? with
  | none => rfl
  | some ra =>
    cases hB : B[i]? with
    | none => simp
    | some rb => simp [zipWith_getElem?]

theorem addMat_assoc (A B C : Mat ℝ) :
    addMat (addMat A B) C = addMat A (addMat B C) := by
  unfold addMat zipMat
  exact zipWith_assoc _ (fun a b c => zipWith_assoc _ add_assoc a b c) A B C

theorem isShape_addMat {A B : Mat ℝ} {r c : Nat}
    (hA : isShape A r c) (hB : isShape B r c) : isShape (addMat A B) r c := by
  obtain ⟨hAl, hAr⟩ := hA
  obtain ⟨hBl, hBr⟩ := hB
  constructor
  · simp [addMat, zipMat, hAl, hBl]
  · intro row hrow
    simp only [addMat, zipMat] at hrow
    rw [List.mem_iff_getElem?] at hrow
    obtain ⟨i, hi⟩ := hrow
    rw [zipWith_getElem?] at hi
    cases hA : A[i]? with
    | none => rw [hA] at hi; simp at hi
    | some ra =>
      cases hB : B[i]? with
      | none => rw [hA, hB] at hi; simp at hi
      | some rb =>
        rw [hA, hB] at hi
        simp only [Option.some_bind, Option.map_some', Option.some.injEq] at hi
        subst hi
        rw [List.length_zipWith, hAr ra (List.mem_iff_getElem?.mpr ⟨i, hA⟩),
          hBr rb (List.mem_iff_getElem?.mpr ⟨i, hB⟩)]
        exact Nat.min_self c

theorem isShape_mapMat (f : α → β) {A : Mat α} {r c : Nat}
    (h : isShape A r c) : isShape (mapMat f A) r c := by
  obtain ⟨hl, hr⟩ := h
  constructor
  · simp [mapMat, hl]
  · intro row hrow
    simp only [mapMat, List.mem_map] at hrow
    obtain ⟨row₀, h₀, rfl⟩ := hrow
    simp [hr row₀ h₀]

theorem qabs_nonneg (x : ℚ) : 0 ≤ qabs x := by
  unfold qabs; split <;> linarith

theorem qabs_eq_zero_iff {x : ℚ} : qabs x = 0 ↔ x = 0 := by
  unfold qabs; split <;> constructor <;> intro h <;> linarith

theorem argminAbs_eq_none_iff (lon0 : ℚ) (xs : List ℚ) :
    argminAbs lon0 xs = none ↔ xs = [] := by
  cases xs with
  | nil => simp [argminAbs]
  | cons x xs =>
    simp only [argminAbs]
    cases argminAbs lon0 xs with
    | none => simp
    | some p => obtain ⟨i, m⟩ := p; dsimp only; split <;> simp

theorem argminAbs_spec (lon0 : ℚ) :
    ∀ (xs : List ℚ) (i : Nat) (m : ℚ), argminAbs lon0 xs = some (i, m) →
      (∃ x, xs[i]? = some x ∧ qabs (x - lon0) = m) ∧
        ∀ (j : Nat) (x : ℚ), xs[j]? = some x → m ≤ qabs (x - lon0)
  | [], i, m => by simp [argminAbs]
  | x :: xs, i, m => by
    intro h
    rw [argminAbs] at h
    cases hrec : argminAbs lon0 xs with
    | none =>
      rw [hrec] at h
      have hnil : xs = [] := (argminAbs_eq_none_iff lon0 xs).mp hrec
      subst hnil
      simp only [Option.some.injEq, Prod.mk.injEq] at h
      obtain ⟨rfl, rfl⟩ := h
      refine ⟨⟨x, by simp, rfl⟩, ?_⟩
      intro j y hy
      match j, hy with
      | 0, hy => simp at hy; subst hy; exact le_refl _
    | some p =>
      obtain ⟨i', m'⟩ := p
      rw [hrec] at h
      obtain ⟨⟨x', hx', hm'⟩, hmin'⟩ := argminAbs_spec lon0 xs i' m' hrec
      dsimp only at h
      split at h <;> rename_i hle <;>
        simp only [Option.some.injEq, Prod.mk.injEq] at h <;> obtain ⟨rfl, rfl⟩ := h
      · refine ⟨⟨x, by simp, rfl⟩, ?_⟩
        intro j y hy
        match j, hy with
        | 0, hy => simp at hy; subst hy; exact le_refl _
        | j + 1, hy =>
          simp only [List.getElem?_cons_succ] at hy
          exact le_trans hle (hmin' j y hy)
      · refine ⟨⟨x', by simpa using hx', hm'⟩, ?_⟩
        intro j y hy
        match j, hy with
        | 0, hy => simp at hy; subst hy; linarith [not_le.mp hle]
        | j + 1, hy =>
          simp only [List.getElem?_cons_succ] at hy
          exact hmin' j y hy

theorem argminAbs_index_lt (lon0 : ℚ) (xs : List ℚ) (i : Nat) (m : ℚ)
    (h : argminAbs lon0 xs = some (i, m)) : i < xs.length := by
  obtain ⟨⟨x, hx, _⟩, _⟩ := argminAbs_spec lon0 xs i m h
  exact List.getElem?_eq_some_iff.mp hx |>.1

theorem shiftI0_lt_length (lon0 : ℚ) (lons : List ℚ) (h : lons ≠ []) :
    shiftI0 lon0 lons < lons.length := by
  unfold shiftI0
  cases hm : argminAbs lon0 lons with
  | none => exact absurd ((argminAbs_eq_none_iff lon0 lons).mp hm) h
  | some p => simpa using argminAbs_index_lt lon0 lons p.1 p.2 (by simpa using hm)

/-- On a sorted longitude grid, entry order follows index order. -/
theorem sorted_getElem?_le {xs : List ℚ} (hs : List.Sorted (· < ·) xs)
    {a b : Nat} {x y : ℚ} (hx : xs[a]? = some x) (hy : xs[b]? = some y)
    (hab : a ≤ b) : x ≤ y := by
  obtain ⟨ha, hxe⟩ := List.getElem?_eq_some_iff.mp hx
  obtain ⟨hb, hye⟩ := List.getElem?_eq_some_iff.mp hy
  rcases Nat.eq_or_lt_of_le hab with rfl | hlt
  · rw [← hxe, ← hye]
  · subst hxe hye
    exact le_of_lt (List.pairwise_iff_get.mp hs ⟨a, ha⟩ ⟨b, hb⟩ hlt)

/-! ## Index-level description of `shiftgrid` -/

/-- The output of a shift-rotation at position `j`, described by the
source position `shiftIdx`: the leading `n - i0` entries come from
positions `i0 + j` (transformed by `g`), the rest from positions
`startIdx + (j - (n - i0))`. -/
theorem shifted_getElem? (g : α → α) (s i0 : Nat) (xs : List α) (j : Nat)
    (hj : j < (xs.length - i0) + min i0 (xs.length - s)) :
    ∃ x, xs[shiftIdx s i0 xs.length j]? = some x ∧
      ((xs.drop i0).map g ++ (xs.drop s).take i0)[j]?
        = some (if j < xs.length - i0 then g x else x) := by
  by_cases hcase : j < xs.length - i0
  · have hx : i0 + j < xs.length := by omega
    refine ⟨xs[i0 + j], ?_, ?_⟩
    · rw [shiftIdx, if_pos hcase]
      exact List.getElem?_eq_getElem hx
    · rw [List.getElem?_append, if_pos (by simp; omega), List.getElem?_map,
        List.getElem?_drop, List.getElem?_eq_getElem hx]
      simp [hcase]
  · have hk : j - (xs.length - i0) < min i0 (xs.length - s) := by omega
    have hx : s + (j - (xs.length - i0)) < xs.length := by omega
    refine ⟨xs[s + (j - (xs.length - i0))], ?_, ?_⟩
    · rw [shiftIdx, if_neg hcase]
      exact List.getElem?_eq_getElem hx
    · rw [List.getElem?_append, if_neg (by simp; omega)]
      rw [List.length_map, List.length_drop, List.getElem?_take,
        if_pos (by omega), List.getElem?_drop, List.getElem?_eq_getElem hx]
      simp [hcase]

/-- Unfolding a successful `shiftgrid` call. -/
theorem shiftgrid_eq_some {lon0 : ℚ} {A : Mat ℝ} {lons : List ℚ}
    {B : Mat ℝ} {L : List ℚ} (h : shiftgrid lon0 A lons = some (B, L)) :
    lons ≠ [] ∧ (∀ row ∈ A, row.length = lons.length) ∧
      lons.headD 0 ≤ lon0 ∧ lon0 ≤ lons.getLastD 0 ∧
      B = A.map (fun row => row.drop (shiftI0 lon0 lons)
            ++ (row.drop (shiftStart lons)).take (shiftI0 lon0 lons)) ∧
      L = (lons.drop (shiftI0 lon0 lons)).map (· - 360)
            ++ (lons.drop (shiftStart lons)).take (shiftI0 lon0 lons) := by
  rw [shiftgrid] at h
  split at h
  · exact absurd h (by simp)
  · split at h
    · exact absurd h (by simp)
    · split at h
      · exact absurd h (by simp)
      · rename_i h1 h2 h3
        simp only [Option.some.injEq, Prod.mk.injEq] at h
        obtain ⟨rfl, rfl⟩ := h
        refine ⟨by simpa [List.isEmpty_iff] using h1, ?_, ?_, ?_, rfl, rfl⟩
        · intro row hrow
          by_contra hne
          exact h2 (List.any_eq_true.mpr ⟨row, hrow, by simpa using hne⟩)
        · push_neg at h3; exact h3.1
        · push_neg at h3; exact h3.2

/-- A successful `shiftgrid` keeps the longitude count and the row count,
and every output row is as long as the output longitude list. -/
theorem shiftgrid_shape {lon0 : ℚ} {A : Mat ℝ} {lons : List ℚ}
    {B : Mat ℝ} {L : List ℚ} (h : shiftgrid lon0 A lons = some (B, L)) :
    L.length = lons.length ∧ B.length = A.length ∧
      ∀ row ∈ B, row.length = L.length := by
  obtain ⟨hne, hrows, -, -, hB, hL⟩ := shiftgrid_eq_some h
  have hi0 : shiftI0 lon0 lons < lons.length := shiftI0_lt_length lon0 lons hne
  have hs : shiftStart lons ≤ 1 := by unfold shiftStart; split <;> simp
  have hLlen : L.length = lons.length := by
    rw [hL, List.length_append, List.length_map, List.length_drop,
      List.length_take, List.length_drop, Nat.min_eq_left (by omega)]
    omega
  refine ⟨hLlen, by rw [hB, List.length_map], ?_⟩
  intro row hrow
  rw [hB, List.mem_map] at hrow
  obtain ⟨row₀, h₀, rfl⟩ := hrow
  have hr := hrows row₀ h₀
  rw [List.length_append, List.length_drop, List.length_take, List.length_drop,
    hr, Nat.min_eq_left (by omega), hLlen]
  omega

/-- Entry `j` of the shifted longitudes comes from source position
`shiftIdx` of `lons`: wrapped entries are shifted down by the cyclic
period 360, the rest are unchanged. -/
theorem shiftgrid_lon_getElem {lon0 : ℚ} {A : Mat ℝ} {lons : List ℚ}
    {B : Mat ℝ} {L : List ℚ} (h : shiftgrid lon0 A lons = some (B, L))
    (j : Nat) (hj : j < L.length) :
    ∃ x, lons[shiftIdx (shiftStart lons) (shiftI0 lon0 lons) lons.length j]? = some x ∧
      (L[j]? = some (x - 360) ∨ L[j]? = some x) := by
  obtain ⟨hne, -, -, -, -, hL⟩ := shiftgrid_eq_some h
  have hj' : j < (lons.length - shiftI0 lon0 lons)
      + min (shiftI0 lon0 lons) (lons.length - shiftStart lons) := by
    rw [hL] at hj
    simpa [List.length_append, List.length_map, List.length_drop,
      List.length_take] using hj
  obtain ⟨x, hx, hout⟩ := shifted_getElem? (· - 360) (shiftStart lons)
    (shiftI0 lon0 lons) lons j hj'
  refine ⟨x, hx, ?_⟩
  rw [hL, hout]
  split <;> [exact Or.inl rfl; exact Or.inr rfl]

/-- Entry `(i, j)` of the shifted data comes from entry
`(i, shiftIdx j)` of the input data: the columns are permuted by exactly
the same index map as the longitudes. -/
theorem shiftgrid_data_mget {lon0 : ℚ} {A : Mat ℝ} {lons : List ℚ}
    {B : Mat ℝ} {L : List ℚ} (h : shiftgrid lon0 A lons = some (B, L))
    (i j : Nat) (hj : j < L.length) :
    mget B i j
      = mget A i (shiftIdx (shiftStart lons) (shiftI0 lon0 lons) lons.length j) := by
  obtain ⟨hne, hrows, -, -, hB, hL⟩ := shiftgrid_eq_some h
  rw [mget, mget, hB, List.getElem?_map]
  cases hA : A[i]? with
  | none => rfl
  | some row =>
    have hrl : row.length = lons.length := hrows row (List.mem_iff_getElem?.mpr ⟨i, hA⟩)
    simp only [Option.map_some', Option.some_bind]
    have hj' : j < (row.length - shiftI0 lon0 lons)
        + min (shiftI0 lon0 lons) (row.length - shiftStart lons) := by
      rw [hL] at hj
      rw [hrl]
      simpa [List.length_append, List.length_map, List.length_drop,
        List.length_take] using hj
    obtain ⟨x, hx, hout⟩ := shifted_getElem? id (shiftStart lons)
      (shiftI0 lon0 lons) row j hj'
    rw [show (row.drop (shiftI0 lon0 lons)).map id = row.drop (shiftI0 lon0 lons)
        by simp] at hout
    rw [hout, hrl] at *
    rw [hx]
    split <;> rfl

/-! ## Python indexing lemmas -/

theorem isSome_getElem?_iff (xs : List α) (k : Nat) :
    xs[k]?.isSome ↔ k < xs.length := by
  constructor
  · intro h
    obtain ⟨a, ha⟩ := Option.isSome_iff_exists.mp h
    exact (List.getElem?_eq_some_iff.mp ha).1
  · intro h
    rw [List.getElem?_eq_getElem h]
    rfl

theorem pyIndex_isSome_iff (xs : List α) (i : Int) :
    (pyIndex xs i).isSome ↔ -(xs.length : Int) ≤ i ∧ i < (xs.length : Int) := by
  unfold pyIndex
  split <;> rename_i h0
  · rw [isSome_getElem?_iff]
    omega
  · split <;> rename_i hneg
    · rw [isSome_getElem?_iff]
      omega
    · simp only [Option.isSome_none, Bool.false_eq_true, false_iff]
      omega

theorem pyIndex_map (g : α → β) (xs : List α) (i : Int) :
    pyIndex (xs.map g) i = (pyIndex xs i).map g := by
  unfold pyIndex
  simp only [List.length_map, List.getElem?_map]
  split
  · rfl
  · split <;> rfl

theorem pyIndex_zip (u : List α) (v : List β) (hl : u.length = v.length) (i : Int) :
    pyIndex (u.zip v) i
      = (pyIndex u i).bind fun a => (pyIndex v i).map (a, ·) := by
  have hz : (u.zip v).length = u.length := by
    rw [List.length_zip, hl, Nat.min_self]
  unfold pyIndex
  rw [hz, hl]
  split
  · simp [List.zip, zipWith_getElem?]
  · split
    · simp [List.zip, zipWith_getElem?]
    · simp

/-! ## Accumulation-loop lemmas -/

theorem foldl_addMat_eq_matSum :
    ∀ (l : List (Mat ℝ)) (a : Mat ℝ), l.foldl addMat a = matSum (a :: l)
  | [], a => rfl
  | x :: xs, a => by
    rw [List.foldl_cons, foldl_addMat_eq_matSum xs (addMat a x)]
    cases xs with
    | nil => rfl
    | cons y ys =>
      show matSum (addMat a x :: y :: ys) = matSum (a :: x :: y :: ys)
      rw [show matSum (addMat a x :: y :: ys) = addMat (addMat a x) (matSum (y :: ys)) from rfl,
        show matSum (a :: x :: y :: ys) = addMat a (matSum (x :: y :: ys)) from rfl,
        show matSum (x :: y :: ys) = addMat x (matSum (y :: ys)) from rfl,
        addMat_assoc]

theorem accumLoop_cons (d0 : JSData) (rest : List JSData) :
    accumLoop (d0 :: rest)
      = { d0 with windspeed := (rest.map JSData.windspeed).foldl addMat d0.windspeed }
          :: rest := by
  show (rest.foldl accumStep (d0 :: rest)) = _
  suffices h : ∀ (l : List JSData) (d : JSData) (r : List JSData),
      l.foldl accumStep (d :: r)
        = { d with windspeed := (l.map JSData.windspeed).foldl addMat d.windspeed } :: r by
    exact h rest d0 rest
  intro l
  induction l with
  | nil => intro d r; rfl
  | cons x xs ih =>
    intro d r
    rw [List.foldl_cons, show accumStep (d :: r) x
      = { d with windspeed := addMat d.windspeed x.windspeed } :: r from rfl, ih]
    rfl

/-! ## The ERA wind-speed formula, entrywise -/

theorem mget_eraFormula (uT vT : Mat ℝ) (i j : Nat) :
    mget (smulMat 3.6 (mapSqrtMat (addMat (matSq uT) (matSq vT)))) i j
      = (mget uT i j).bind fun a => (mget vT i j).map
          fun b => 3.6 * Real.sqrt (a ^ 2 + b ^ 2) := by
  simp only [smulMat, mapSqrtMat, matSq, addMat, mget_mapMat, mget_zipMat]
  cases mget uT i j <;> cases mget vT i j <;> simp

theorem matShape_eq_replicate {A : Mat α} {r c : Nat} (h : isShape A r c) :
    matShape A = List.replicate r c := by
  obtain ⟨hl, hr⟩ := h
  refine List.eq_replicate_iff.mpr ⟨by simp [matShape, hl], ?_⟩
  intro b hb
  simp only [matShape, List.mem_map] at hb
  obtain ⟨row, hrow, rfl⟩ := hb
  exact hr row hrow

/-! # The claims -/

/-- C1 (code bug evidence): on the GFS dataset with `lon = [0, 180]`,
`lat = [0]`, `u = [[3, 3]]`, `v = [[4, 4]]` (m/s), the loader stores the
constant field `3.6 * sqrt(u^2) = 10.8` km/h: the second argument of
`np.sqrt(u_component**2, v_component**2)` is the ufunc's `out` parameter,
so `v` never enters the result.  The claimed value
`3.6 * sqrt(u^2 + v^2)` is `18` km/h, which differs. -/
theorem c1_gfs_windspeed_bug :
    (gfsLoad ⟨[0, 180], [0], [[3, 3]], [[4, 4]]⟩).map JSData.windspeed
        = some [[3.6 * Real.sqrt ((3 : ℝ) ^ 2), 3.6 * Real.sqrt ((3 : ℝ) ^ 2)]]
      ∧ 3.6 * Real.sqrt ((3 : ℝ) ^ 2) = 10.8
      ∧ 3.6 * Real.sqrt ((3 : ℝ) ^ 2 + (4 : ℝ) ^ 2) = 18
      ∧ (10.8 : ℝ) ≠ 18 := by
  refine ⟨?_, ?_, ?_, by norm_num⟩
  · norm_num [gfsLoad, gfsRawWindspeed, npSqrtOut, matShape, matSq, mapMat,
      mapSqrtMat, smulMat, shiftgrid, shiftStart, shiftI0, argminAbs, qabs]
  · rw [Real.sqrt_sq (by norm_num : (0:ℝ) ≤ 3)]
    norm_num
  · rw [show (3 : ℝ) ^ 2 + (4 : ℝ) ^ 2 = 5 ^ 2 by norm_num,
      Real.sqrt_sq (by norm_num : (0:ℝ) ≤ 5)]
    norm_num

/-- C4: after the accumulation loop and the division, the `windspeed` of
the first dataset equals the elementwise arithmetic mean of the 16 daily
wind-speed fields: their sum divided by 16. -/
theorem c4_gfs_average_is_mean (sd : List JSData) (d0 : JSData)
    (rest : List JSData) (hsd : sd = d0 :: rest) (hlen : sd.length = 16) :
    (plotGfsAverageData sd).head?.map JSData.windspeed
      = some (matMean (sd.map JSData.windspeed)) := by
  subst hsd
  rw [plotGfsAverageData, accumLoop_cons, divideStep]
  simp only [List.head?_cons, Option.map_some']
  rw [foldl_addMat_eq_matSum]
  show some (divMat (matSum (d0.windspeed :: rest.map JSData.windspeed)) _) = _
  rw [matMean]
  have h16 : gfsDays.length = 16 := by simp [gfsDays]
  have hlen' : ((d0 :: rest).map JSData.windspeed).length = 16 := by
    simpa using hlen
  rw [h16, hlen']
  rfl

/-- C4 witness: the theorem applied to 16 concrete one-point datasets. -/
theorem c4_gfs_average_is_mean_witness :
    (plotGfsAverageData (List.replicate 16 ⟨[0], [0], [[1]]⟩)).head?.map
        JSData.windspeed
      = some (matMean ((List.replicate 16 (⟨[0], [0], [[1]]⟩ : JSData)).map
          JSData.windspeed)) :=
  c4_gfs_average_is_mean _ _ (List.replicate 15 ⟨[0], [0], [[1]]⟩)
    (by rfl) (by simp)

/-- C9: the accumulation loop and division of `plot_gfs_average` leave
every dataset other than the first unchanged, and change neither the
`lon` nor the `lat` of the first. -/
theorem c9_accumulation_frame (sd : List JSData) :
    (∀ k : Nat, 1 ≤ k → (plotGfsAverageData sd)[k]? = sd[k]?) ∧
      ∀ d0 d0', sd.head? = some d0 → (plotGfsAverageData sd).head? = some d0' →
        d0'.lon = d0.lon ∧ d0'.lat = d0.lat := by
  cases sd with
  | nil =>
    refine ⟨fun k hk => rfl, fun d0 d0' h _ => ?_⟩
    simp at h
  | cons d0 rest =>
    rw [plotGfsAverageData, accumLoop_cons, divideStep]
    constructor
    · intro k hk
      match k, hk with
      | k + 1, _ => simp
    · intro a b ha hb
      simp only [List.head?_cons, Option.some.injEq] at ha hb
      subst ha
      subst hb
      exact ⟨rfl, rfl⟩

/-- C9 witness: the theorem at a concrete two-dataset state. -/
theorem c9_accumulation_frame_witness :
    (plotGfsAverageData [⟨[1], [2], [[3]]⟩, ⟨[4], [5], [[6]]⟩])[1]?
        = some ⟨[4], [5], [[6]]⟩
      ∧ ∃ d0', (plotGfsAverageData [⟨[1], [2], [[3]]⟩, ⟨[4], [5], [[6]]⟩]).head?
            = some d0' ∧ d0'.lon = [1] ∧ d0'.lat = [2] := by
  obtain ⟨h1, h2⟩ := c9_accumulation_frame [⟨[1], [2], [[3]]⟩, ⟨[4], [5], [[6]]⟩]
  refine ⟨h1 1 (le_refl 1), ?_⟩
  rcases hb : (plotGfsAverageData [⟨[1], [2], [[3]]⟩, ⟨[4], [5], [[6]]⟩]).head? with - | d0'
  · exact absurd hb (by rw [plotGfsAverageData, accumLoop_cons, divideStep]; simp)
  · obtain ⟨hlon, hlat⟩ := h2 _ d0' rfl hb
    exact ⟨d0', rfl, hlon, hlat⟩

theorem runEraGo_all_ok (load : Int → Except ε JSData) :
    ∀ ys : List Int, (∀ y ∈ ys, ∃ d, load y = .ok d) →
      runEraGo load ys = (ys.map eraFileName, none)
  | [], _ => rfl
  | y :: ys, h => by
    obtain ⟨d, hd⟩ := h y (by simp)
    rw [runEraGo, hd, runEraGo_all_ok load ys (fun z hz => h z (by simp [hz]))]
    rfl

theorem runEraGo_first_error (load : Int → Except ε JSData) :
    ∀ (ys : List Int) (k : Nat) (yk : Int) (e : ε),
      ys[k]? = some yk → load yk = .error e →
      (∀ (j : Nat) (yj : Int), j < k → ys[j]? = some yj → ∃ d, load yj = .ok d) →
      runEraGo load ys = ((ys.take k).map eraFileName, some e)
  | [], k, yk, e => by simp
  | y :: ys, 0, yk, e => by
    intro hk he _
    simp only [List.getElem?_cons_zero, Option.some.injEq] at hk
    subst hk
    rw [runEraGo, he]
    rfl
  | y :: ys, k + 1, yk, e => by
    intro hk he hok
    obtain ⟨d, hd⟩ := hok 0 y (Nat.succ_pos k) (by simp)
    rw [runEraGo, hd, runEraGo_first_error load ys k yk e (by simpa using hk) he
      (fun j yj hj hyj => hok (j + 1) yj (by omega) (by simpa using hyj))]
    rfl

theorem loadSeq_all_ok (load : Nat → Except ε JSData) :
    ∀ days : List Nat, (∀ d ∈ days, ∃ x, load d = .ok x) →
      ∃ l, loadSeq load days = .ok l
  | [], _ => ⟨[], rfl⟩
  | d :: ds, h => by
    obtain ⟨x, hx⟩ := h d (by simp)
    obtain ⟨l, hl⟩ := loadSeq_all_ok load ds (fun z hz => h z (by simp [hz]))
    exact ⟨x :: l, by rw [loadSeq, hx, hl]; rfl⟩

theorem loadSeq_first_error (load : Nat → Except ε JSData) :
    ∀ (days : List Nat) (k : Nat) (dk : Nat) (e : ε),
      days[k]? = some dk → load dk = .error e →
      (∀ (j : Nat) (dj : Nat), j < k → days[j]? = some dj → ∃ x, load dj = .ok x) →
      loadSeq load days = .error e
  | [], k, dk, e => by simp
  | d :: ds, 0, dk, e => by
    intro hk he _
    simp only [List.getElem?_cons_zero, Option.some.injEq] at hk
    subst hk
    rw [loadSeq, he]
  | d :: ds, k + 1, dk, e => by
    intro hk he hok
    obtain ⟨x, hx⟩ := hok 0 d (Nat.succ_pos k) (by simp)
    rw [loadSeq, hx, loadSeq_first_error load ds k dk e (by simpa using hk) he
      (fun j dj hj hdj => hok (j + 1) dj (by omega) (by simpa using hdj))]
    rfl

theorem eraYears_getElem? (k : Nat) (h : k < 35) :
    eraYears[k]? = some (1979 + (k : Int)) := by
  rw [eraYears, List.getElem?_eq_getElem (by simpa using h)]
  simp

theorem gfsDays_getElem? (k : Nat) (h : k < 16) :
    gfsDays[k]? = some (1 + k) := by
  rw [gfsDays, List.getElem?_eq_getElem (by simpa using h)]
  simp [List.getElem_range']

theorem mem_eraYears {year : Int} (h1 : 1979 ≤ year) (h2 : year ≤ 2013) :
    year ∈ eraYears := by
  rw [eraYears, List.mem_map]
  exact ⟨(year - 1979).toNat,
    List.mem_range.mpr (by omega : (year - 1979).toNat < 35), by omega⟩

/-- C5: when every load succeeds, `plot_era_average` writes exactly one
file `output/<year>.png` for each year `1979 ≤ year ≤ 2013` (and 35 files
in total, one per iteration), and `plot_gfs_average` writes the single
file `output/gfs.png`. -/
theorem c5_output_files (ε : Type) (loadE : Int → Except ε JSData)
    (loadG : Nat → Except ε JSData)
    (hE : ∀ y, ∃ d, loadE y = .ok d) (hG : ∀ d, ∃ x, loadG d = .ok x) :
    (∀ year : Int, 1979 ≤ year → year ≤ 2013 →
        (runEra loadE).1.count (eraFileName year) = 1)
      ∧ (runEra loadE).1.length = 35
      ∧ runGfs loadG = (["output/gfs.png"], none) := by
  have hrun : runEra loadE = (eraYears.map eraFileName, none) :=
    runEraGo_all_ok loadE eraYears (fun y _ => hE y)
  refine ⟨?_, ?_, ?_⟩
  · intro year h1 h2
    have hnd : (eraYears.map eraFileName).Nodup := by decide
    rw [hrun]
    exact List.count_eq_one_of_mem hnd
      (List.mem_map.mpr ⟨year, mem_eraYears h1 h2, rfl⟩)
  · rw [hrun]
    rfl
  · obtain ⟨l, hl⟩ := loadSeq_all_ok loadG gfsDays (fun d _ => hG d)
    rw [runGfs, hl]

/-- C5 witness: the theorem applied to loaders that always succeed. -/
theorem c5_output_files_witness :
    ((runEra (ε := Unit) (fun _ => .ok ⟨[], [], []⟩)).1.count
        (eraFileName 1979) = 1)
      ∧ (runEra (ε := Unit) (fun _ => .ok ⟨[], [], []⟩)).1.length = 35
      ∧ runGfs (ε := Unit) (fun _ => .ok ⟨[], [], []⟩)
          = (["output/gfs.png"], none) := by
  obtain ⟨h1, h2, h3⟩ := c5_output_files Unit (fun _ => .ok ⟨[], [], []⟩)
    (fun _ => .ok ⟨[], [], []⟩) (fun y => ⟨_, rfl⟩) (fun d => ⟨_, rfl⟩)
  exact ⟨h1 1979 (by norm_num) (by norm_num), h2, h3⟩

/-- C6: the drivers catch nothing.  If the load of the `k`-th ERA year is
the first to raise, the exception propagates out of `plot_era_average`,
and exactly the files of the earlier iterations were written — none for
the failing or any later year.  If any GFS load raises, the exception
propagates out of `plot_gfs_average` and no file at all is written (the
single `savefig` comes after all loads). -/
theorem c6_load_failure_propagates (ε : Type) :
    (∀ (loadE : Int → Except ε JSData) (k : Nat) (e : ε), k < 35 →
        loadE (1979 + (k : Int)) = .error e →
        (∀ j : Nat, j < k → ∃ d, loadE (1979 + (j : Int)) = .ok d) →
        runEra loadE = ((eraYears.take k).map eraFileName, some e))
      ∧ ∀ (loadG : Nat → Except ε JSData) (k : Nat) (e : ε), k < 16 →
          loadG (1 + k) = .error e →
          (∀ j : Nat, j < k → ∃ x, loadG (1 + j) = .ok x) →
          runGfs loadG = ([], some e) := by
  constructor
  · intro loadE k e hk he hok
    refine runEraGo_first_error loadE eraYears k (1979 + (k : Int)) e
      (eraYears_getElem? k hk) he ?_
    · intro j yj hj hyj
      rw [eraYears_getElem? j (by omega), Option.some.injEq] at hyj
      exact hyj ▸ hok j hj
  · intro loadG k e hk he hok
    have hseq : loadSeq loadG gfsDays = .error e := by
      refine loadSeq_first_error loadG gfsDays k (1 + k) e
        (gfsDays_getElem? k hk) he ?_
      · intro j dj hj hdj
        rw [gfsDays_getElem? j (by omega), Option.some.injEq] at hdj
        exact hdj ▸ hok j hj
    rw [runGfs, hseq]

/-- C6 witness: a loader whose very first load fails writes nothing. -/
theorem c6_load_failure_propagates_witness :
    runEra (ε := Unit) (fun _ => .error ()) = ([], some ())
      ∧ runGfs (ε := Unit) (fun _ => .error ()) = ([], some ()) := by
  obtain ⟨h1, h2⟩ := c6_load_failure_propagates Unit
  constructor
  · simpa using h1 (fun _ => .error ()) 0 () (by norm_num) rfl (by omega)
  · simpa using h2 (fun _ => .error ()) 0 () (by norm_num) rfl (by omega)

/-- Unfolding a successful `eraLoad`. -/
theorem eraLoad_eq_some {src : ERASource} {year : Int} {d : JSData}
    (h : eraLoad src year = some d) :
    ∃ wT B L, eraSlice src year = some wT
      ∧ shiftgrid 180 wT src.lon = some (B, L) ∧ d = ⟨L, src.lat, B⟩ := by
  rw [eraLoad] at h
  cases hs : eraSlice src year with
  | none => rw [hs] at h; simp at h
  | some wT =>
    rw [hs] at h
    simp only [Option.some_bind] at h
    cases hg : shiftgrid 180 wT src.lon with
    | none => rw [hg] at h; simp at h
    | some p =>
      rw [hg] at h
      simp only [Option.map_some', Option.some.injEq] at h
      exact ⟨wT, p.1, p.2, rfl, by rw [hg], h.symm⟩

/-- Unfolding a successful `eraSlice`: the sliced field is the wind-speed
formula applied to the time slices of `u` and `v` at Python index
`year - 1979`. -/
theorem eraSlice_eq_some {src : ERASource} {year : Int} {wT : Mat ℝ}
    (h : eraSlice src year = some wT) :
    ∃ uT vT, pyIndex src.u (year - 1979) = some uT
      ∧ pyIndex src.v (year - 1979) = some vT
      ∧ wT = smulMat 3.6 (mapSqrtMat (addMat (matSq uT) (matSq vT))) := by
  rw [eraSlice] at h
  cases hw : eraWindspeed3 src.u src.v with
  | none => rw [hw] at h; simp at h
  | some w3 =>
    rw [hw] at h
    simp only [Option.some_bind] at h
    rw [eraWindspeed3] at hw
    split at hw
    · rename_i hsh
      simp only [Option.some.injEq] at hw
      subst hw
      have hlen : src.u.length = src.v.length := by
        have := congrArg List.length hsh
        simpa using this
      rw [pyIndex_map, pyIndex_zip src.u src.v hlen] at h
      cases hu : pyIndex src.u (year - 1979) with
      | none => rw [hu] at h; simp at h
      | some uT =>
        rw [hu] at h
        cases hv : pyIndex src.v (year - 1979) with
        | none => rw [hv] at h; simp at h
        | some vT =>
          rw [hv] at h
          simp only [Option.some_bind, Option.map_some', Option.some.injEq] at h
          exact ⟨uT, vT, rfl, rfl, h.symm⟩
    · simp at hw

/-- C2: every value stored by `ERAJetStreamData.load` is
`3.6 * sqrt(u^2 + v^2)` of the corresponding entries of the time slices of
`u` and `v` at index `year - 1979` (the stored columns being the
grid-shifted ones). -/
theorem c2_era_windspeed_formula (src : ERASource) (year : Int) (d : JSData)
    (h : eraLoad src year = some d) :
    ∃ uT vT, pyIndex src.u (year - 1979) = some uT
      ∧ pyIndex src.v (year - 1979) = some vT
      ∧ ∀ (i j : Nat) (x : ℝ), mget d.windspeed i j = some x →
          ∃ (j' : Nat) (a b : ℝ), mget uT i j' = some a ∧ mget vT i j' = some b
            ∧ x = 3.6 * Real.sqrt (a ^ 2 + b ^ 2) := by
  obtain ⟨wT, B, L, hs, hg, rfl⟩ := eraLoad_eq_some h
  obtain ⟨uT, vT, hu, hv, rfl⟩ := eraSlice_eq_some hs
  refine ⟨uT, vT, hu, hv, ?_⟩
  intro i j x hx
  have hj : j < L.length := by
    obtain ⟨-, -, hrows⟩ := shiftgrid_shape hg
    rw [mget] at hx
    cases hB : B[i]? with
    | none => rw [hB] at hx; simp at hx
    | some row =>
      rw [hB] at hx
      simp only [Option.some_bind] at hx
      have hjr : j < row.length := (List.getElem?_eq_some_iff.mp hx).1
      rwa [hrows row (List.mem_iff_getElem?.mpr ⟨i, hB⟩)] at hjr
  rw [show (JSData.mk L src.lat B).windspeed = B from rfl,
    shiftgrid_data_mget hg i j hj, mget_eraFormula] at hx
  cases ha : mget uT i (shiftIdx (shiftStart src.lon) (shiftI0 180 src.lon)
      src.lon.length j) with
  | none => rw [ha] at hx; simp at hx
  | some a =>
    rw [ha] at hx
    cases hb : mget vT i (shiftIdx (shiftStart src.lon) (shiftI0 180 src.lon)
        src.lon.length j) with
    | none => rw [hb] at hx; simp at hx
    | some b =>
      rw [hb] at hx
      simp only [Option.some_bind, Option.map_some', Option.some.injEq] at hx
      exact ⟨_, a, b, ha, hb, hx.symm⟩

/-- C2 witness: the theorem at the concrete one-cell, two-column dataset
`u = [[[3, 3]]]`, `v = [[[4, 4]]]`, `lon = [0, 180]`, `year = 1979`. -/
theorem c2_era_windspeed_formula_witness :
    ∃ uT vT, pyIndex ([[[(3 : ℝ), 3]]] : List (Mat ℝ)) ((1979 : Int) - 1979) = some uT
      ∧ pyIndex ([[[(4 : ℝ), 4]]] : List (Mat ℝ)) ((1979 : Int) - 1979) = some vT
      ∧ ∀ (i j : Nat) (x : ℝ),
          mget (JSData.windspeed ⟨[-180, 0], [0],
            [[3.6 * Real.sqrt ((3 : ℝ) ^ 2 + (4 : ℝ) ^ 2),
              3.6 * Real.sqrt ((3 : ℝ) ^ 2 + (4 : ℝ) ^ 2)]]⟩) i j = some x →
          ∃ (j' : Nat) (a b : ℝ), mget uT i j' = some a ∧ mget vT i j' = some b
            ∧ x = 3.6 * Real.sqrt (a ^ 2 + b ^ 2) := by
  refine c2_era_windspeed_formula ⟨[0, 180], [0], [[[3, 3]]], [[[4, 4]]]⟩ 1979
    ⟨[-180, 0], [0], _⟩ ?_
  norm_num [eraLoad, eraSlice, eraWindspeed3, pyIndex, matShape, matSq, mapMat,
    mapSqrtMat, smulMat, addMat, zipMat, shiftgrid, shiftStart, shiftI0,
    argminAbs, qabs, mget]

/-- Unfolding a successful `gfsLoad`. -/
theorem gfsLoad_eq_some {src : GFSSource} {d : JSData}
    (h : gfsLoad src = some d) :
    ∃ B L, gfsRawWindspeed src.u src.v = some (smulMat 3.6 (mapSqrtMat (matSq src.u)))
      ∧ shiftgrid 180 (smulMat 3.6 (mapSqrtMat (matSq src.u))) src.lon = some (B, L)
      ∧ d = ⟨L, src.lat, B⟩ := by
  rw [gfsLoad, gfsRawWindspeed, npSqrtOut] at h
  split at h
  · rename_i hsh
    simp only [Option.map_some', Option.some_bind] at h
    cases hg : shiftgrid 180 (smulMat 3.6 (mapSqrtMat (matSq src.u))) src.lon with
    | none => rw [hg] at h; simp at h
    | some p =>
      obtain ⟨B, L⟩ := p
      rw [hg] at h
      simp only [Option.map_some', Option.some.injEq] at h
      exact ⟨B, L, by rw [gfsRawWindspeed, npSqrtOut, if_pos hsh]; rfl,
        rfl, h.symm⟩
  · simp at h

theorem pyIndex_mem {xs : List α} {i : Int} {x : α}
    (h : pyIndex xs i = some x) : x ∈ xs := by
  rw [pyIndex] at h
  split at h
  · exact List.mem_iff_getElem?.mpr ⟨_, h⟩
  · split at h
    · exact List.mem_iff_getElem?.mpr ⟨_, h⟩
    · exact absurd h (by simp)

theorem isShape_foldl_addMat {r c : Nat} :
    ∀ (l : List (Mat ℝ)) (a : Mat ℝ), isShape a r c →
      (∀ m ∈ l, isShape m r c) → isShape (l.foldl addMat a) r c
  | [], a, ha, _ => ha
  | x :: xs, a, ha, hl => by
    rw [List.foldl_cons]
    exact isShape_foldl_addMat xs (addMat a x)
      (isShape_addMat ha (hl x (by simp))) (fun m hm => hl m (by simp [hm]))

/-- C7: after every successful load the stored `windspeed` is rectangular
with one row per stored latitude and one column per stored longitude, and
the accumulation/division of `plot_gfs_average` preserves any such
coordinate/field alignment. -/
theorem c7_shape_invariant :
    (∀ (src : GFSSource) (d : JSData),
        isShape src.u src.lat.length src.lon.length →
        isShape src.v src.lat.length src.lon.length →
        gfsLoad src = some d →
        isShape d.windspeed d.lat.length d.lon.length)
      ∧ (∀ (src : ERASource) (year : Int) (d : JSData),
          (∀ m ∈ src.u, isShape m src.lat.length src.lon.length) →
          (∀ m ∈ src.v, isShape m src.lat.length src.lon.length) →
          eraLoad src year = some d →
          isShape d.windspeed d.lat.length d.lon.length)
      ∧ ∀ (sd : List JSData) (r c : Nat),
          (∀ x ∈ sd, isShape x.windspeed r c) →
          ∀ x ∈ plotGfsAverageData sd, isShape x.windspeed r c := by
  refine ⟨?_, ?_, ?_⟩
  · intro src d hu hv h
    obtain ⟨B, L, -, hg, rfl⟩ := gfsLoad_eq_some h
    obtain ⟨-, hBlen, hrows⟩ := shiftgrid_shape hg
    have hw : isShape (smulMat 3.6 (mapSqrtMat (matSq src.u)))
        src.lat.length src.lon.length :=
      isShape_mapMat _ (isShape_mapMat _ (isShape_mapMat _ hu))
    exact ⟨by rw [show (JSData.mk L src.lat B).windspeed = B from rfl, hBlen, hw.1],
      hrows⟩
  · intro src year d hu hv h
    obtain ⟨wT, B, L, hs, hg, rfl⟩ := eraLoad_eq_some h
    obtain ⟨uT, vT, hiu, hiv, rfl⟩ := eraSlice_eq_some hs
    obtain ⟨-, hBlen, hrows⟩ := shiftgrid_shape hg
    have hw : isShape (smulMat 3.6 (mapSqrtMat (addMat (matSq uT) (matSq vT))))
        src.lat.length src.lon.length :=
      isShape_mapMat _ (isShape_mapMat _ (isShape_addMat
        (isShape_mapMat _ (hu uT (pyIndex_mem hiu)))
        (isShape_mapMat _ (hv vT (pyIndex_mem hiv)))))
    exact ⟨by rw [show (JSData.mk L src.lat B).windspeed = B from rfl, hBlen, hw.1],
      hrows⟩
  · intro sd r c hall x hx
    cases sd with
    | nil => simp [plotGfsAverageData, accumLoop, divideStep] at hx
    | cons d0 rest =>
      rw [plotGfsAverageData, accumLoop_cons, divideStep] at hx
      rcases List.mem_cons.mp hx with rfl | hmem
      · refine isShape_mapMat _ (isShape_foldl_addMat _ _ (hall d0 (by simp)) ?_)
        intro m hm
        rw [List.mem_map] at hm
        obtain ⟨y, hy, rfl⟩ := hm
        exact hall y (by simp [hy])
      · exact hall x (by simp [hmem])

/-- C7 witness: the three parts at concrete inputs. -/
theorem c7_shape_invariant_witness :
    isShape (JSData.windspeed ⟨[-180, 0], [0],
        [[3.6 * Real.sqrt ((3 : ℝ) ^ 2), 3.6 * Real.sqrt ((3 : ℝ) ^ 2)]]⟩)
        ([(0 : ℚ)] : List ℚ).length ([(-180 : ℚ), 0] : List ℚ).length
      ∧ ∀ x ∈ plotGfsAverageData [⟨[0], [0], [[1]]⟩], isShape x.windspeed 1 1 := by
  obtain ⟨h1, -, h3⟩ := c7_shape_invariant
  constructor
  · refine h1 ⟨[0, 180], [0], [[3, 3]], [[4, 4]]⟩ _ ?_ ?_ ?_
    · exact ⟨rfl, by intro row hr; simp at hr; simp [hr]⟩
    · exact ⟨rfl, by intro row hr; simp at hr; simp [hr]⟩
    · norm_num [gfsLoad, gfsRawWindspeed, npSqrtOut, matShape, matSq, mapMat,
        mapSqrtMat, smulMat, shiftgrid, shiftStart, shiftI0, argminAbs, qabs]
  · refine h3 [⟨[0], [0], [[1]]⟩] 1 1 ?_
    intro x hx
    simp only [List.mem_singleton] at hx
    subst hx
    exact ⟨rfl, by intro row hr; simp at hr; simp [hr]⟩

theorem pyIndex_neg_wrap (xs : List α) (i : Int)
    (h1 : -(xs.length : Int) ≤ i) (h2 : i < 0) :
    pyIndex xs i = pyIndex xs (i + xs.length) := by
  unfold pyIndex
  rw [if_neg (by omega), if_pos h1, if_pos (by omega : 0 ≤ i + (xs.length : Int))]
  congr 1
  omega

theorem shiftgrid_isSome (lon0 : ℚ) (A : Mat ℝ) (lons : List ℚ)
    (hne : lons ≠ []) (hrows : ∀ row ∈ A, row.length = lons.length)
    (h1 : lons.headD 0 ≤ lon0) (h2 : lon0 ≤ lons.getLastD 0) :
    ∃ BL, shiftgrid lon0 A lons = some BL := by
  rw [shiftgrid, if_neg (by simpa [List.isEmpty_iff] using hne), if_neg, if_neg]
  · exact ⟨_, rfl⟩
  · push_neg
    exact ⟨h1, h2⟩
  · intro hany
    obtain ⟨row, hrow, hbad⟩ := List.any_eq_true.mp hany
    exact absurd (hrows row hrow) (by simpa using hbad)

theorem map_matShape_eq {l : List (Mat ℝ)} {r c : Nat}
    (h : ∀ m ∈ l, isShape m r c) :
    l.map matShape = List.replicate l.length (List.replicate r c) := by
  refine List.eq_replicate_iff.mpr ⟨by simp, ?_⟩
  intro b hb
  rw [List.mem_map] at hb
  obtain ⟨m, hm, rfl⟩ := hb
  exact matShape_eq_replicate (h m hm)

theorem eraWindspeed3_eq_of_shapes {u v : List (Mat ℝ)} {r c : Nat}
    (hlen : u.length = v.length)
    (hu : ∀ m ∈ u, isShape m r c) (hv : ∀ m ∈ v, isShape m r c) :
    eraWindspeed3 u v = some ((u.zip v).map fun p =>
      smulMat 3.6 (mapSqrtMat (addMat (matSq p.1) (matSq p.2)))) := by
  rw [eraWindspeed3, if_pos]
  rw [map_matShape_eq hu, map_matShape_eq hv, hlen]

/-- C8 (amended): on a well-formed ERA file with `nT` stored time slices,
construction succeeds exactly for `1979 - nT ≤ year < 1979 + nT`; for the
years in `[1979 - nT, 1979)` the negative Python index silently selects a
slice counted from the end of the time axis — the data of year
`year + nT` — and an `IndexError` is raised exactly for the years outside
that two-sided window. -/
theorem c8_negative_year_wraparound (src : ERASource)
    (hlen : src.u.length = src.v.length)
    (hu : ∀ m ∈ src.u, isShape m src.lat.length src.lon.length)
    (hv : ∀ m ∈ src.v, isShape m src.lat.length src.lon.length)
    (hne : src.lon ≠ [])
    (hlo : src.lon.headD 0 ≤ 180) (hhi : (180 : ℚ) ≤ src.lon.getLastD 0) :
    (∀ year : Int, (eraLoad src year).isSome ↔
        1979 - (src.u.length : Int) ≤ year ∧ year < 1979 + (src.u.length : Int))
      ∧ ∀ year : Int, 1979 - (src.u.length : Int) ≤ year → year < 1979 →
          eraLoad src year = eraLoad src (year + (src.u.length : Int)) := by
  have hw3 := eraWindspeed3_eq_of_shapes hlen hu hv
  set w3 := (src.u.zip src.v).map
    (fun p => smulMat 3.6 (mapSqrtMat (addMat (matSq p.1) (matSq p.2)))) with hw3def
  have hw3len : w3.length = src.u.length := by
    rw [hw3def, List.length_map, List.length_zip, hlen, Nat.min_self]
  have hshape : ∀ wT ∈ w3, ∀ row ∈ wT, row.length = src.lon.length := by
    intro wT hwT
    rw [hw3def, List.mem_map] at hwT
    obtain ⟨p, hp, rfl⟩ := hwT
    obtain ⟨hp1, hp2⟩ := List.of_mem_zip hp
    exact (isShape_mapMat _ (isShape_mapMat _ (isShape_addMat
      (isShape_mapMat _ (hu p.1 hp1)) (isShape_mapMat _ (hv p.2 hp2))))).2
  constructor
  · intro year
    constructor
    · intro hsome
      obtain ⟨d, hd⟩ := Option.isSome_iff_exists.mp hsome
      obtain ⟨wT, B, L, hs, -, -⟩ := eraLoad_eq_some hd
      obtain ⟨uT, vT, hiu, -, -⟩ := eraSlice_eq_some hs
      have hb : (pyIndex src.u (year - 1979)).isSome := by rw [hiu]; rfl
      rw [pyIndex_isSome_iff] at hb
      omega
    · intro hrange
      have hslice : (pyIndex w3 (year - 1979)).isSome := by
        rw [pyIndex_isSome_iff, hw3len]
        omega
      obtain ⟨wT, hwT⟩ := Option.isSome_iff_exists.mp hslice
      obtain ⟨BL, hBL⟩ := shiftgrid_isSome 180 wT src.lon hne
        (hshape wT (pyIndex_mem hwT)) hlo hhi
      rw [eraLoad, eraSlice, hw3, Option.some_bind, hwT, Option.some_bind, hBL]
      rfl
  · intro year hy1 hy2
    have hidx : year + (src.u.length : Int) - 1979
        = (year - 1979) + (w3.length : Int) := by
      rw [hw3len]; ring
    rw [eraLoad, eraLoad, eraSlice, eraSlice, hw3, Option.some_bind,
      Option.some_bind, hidx,
      ← pyIndex_neg_wrap w3 (year - 1979) (by rw [hw3len]; omega) (by omega)]

/-- C8 witness: the amended theorem at a concrete two-slice file. -/
theorem c8_negative_year_wraparound_witness :
    ((eraLoad ⟨[0, 180], [0], [[[3, 3]], [[3, 3]]], [[[4, 4]], [[4, 4]]]⟩
        1978).isSome ↔
      1979 - (([[[(3 : ℝ), 3]], [[3, 3]]] : List (Mat ℝ)).length : Int) ≤ 1978
        ∧ (1978 : Int) < 1979 + (([[[(3 : ℝ), 3]], [[3, 3]]] : List (Mat ℝ)).length : Int))
      ∧ eraLoad ⟨[0, 180], [0], [[[3, 3]], [[3, 3]]], [[[4, 4]], [[4, 4]]]⟩ 1978
          = eraLoad ⟨[0, 180], [0], [[[3, 3]], [[3, 3]]], [[[4, 4]], [[4, 4]]]⟩
              (1978 + (([[[(3 : ℝ), 3]], [[3, 3]]] : List (Mat ℝ)).length : Int)) := by
  obtain ⟨h1, h2⟩ := c8_negative_year_wraparound
    ⟨[0, 180], [0], [[[3, 3]], [[3, 3]]], [[[4, 4]], [[4, 4]]]⟩
    rfl
    (by
      intro m hm
      simp at hm
      subst hm
      exact ⟨rfl, by intro row hr; simp at hr; simp [hr]⟩)
    (by
      intro m hm
      simp at hm
      subst hm
      exact ⟨rfl, by intro row hr; simp at hr; simp [hr]⟩)
    (by simp)
    (by norm_num)
    (by norm_num)
  exact ⟨h1 1978, h2 1978 (by norm_num) (by norm_num)⟩

/-- C8 counterexample to the claim as stated: with two stored time
slices, the year 1900 — far below `1979 + nT` — also raises an
`IndexError` (`1900 - 1979 = -79` is below `-nT`), refuting that *only*
years at or beyond `1979 + nT` raise; meanwhile 1978 does construct. -/
theorem c8_claim_counterexample :
    ([[[(3 : ℝ), 3]], [[3, 3]]] : List (Mat ℝ)).length = 2
      ∧ eraLoad ⟨[0, 180], [0], [[[3, 3]], [[3, 3]]], [[[4, 4]], [[4, 4]]]⟩ 1900
          = none
      ∧ ¬ ((1979 : Int) + 2 ≤ 1900)
      ∧ (eraLoad ⟨[0, 180], [0], [[[3, 3]], [[3, 3]]], [[[4, 4]], [[4, 4]]]⟩
          1978).isSome := by
  refine ⟨rfl, ?_, by norm_num, ?_⟩
  · norm_num [eraLoad, eraSlice, eraWindspeed3, pyIndex, matShape, matSq, mapMat,
      mapSqrtMat, smulMat, addMat, zipMat]
  · rw [Option.isSome_iff_exists]
    refine ⟨⟨[-180, 0], [0], [[3.6 * Real.sqrt ((3 : ℝ) ^ 2 + (4 : ℝ) ^ 2),
      3.6 * Real.sqrt ((3 : ℝ) ^ 2 + (4 : ℝ) ^ 2)]]⟩, ?_⟩
    norm_num [eraLoad, eraSlice, eraWindspeed3, pyIndex, matShape, matSq, mapMat,
      mapSqrtMat, smulMat, addMat, zipMat, shiftgrid, shiftStart, shiftI0,
      argminAbs, qabs]

/-- On a strictly sorted grid containing 180, `np.argmin` of the
distances to 180 points at the grid point 180 itself. -/
theorem shiftI0_getElem_of_mem {lons : List ℚ} (hs : List.Sorted (· < ·) lons)
    (h180 : (180 : ℚ) ∈ lons) : lons[shiftI0 180 lons]? = some 180 := by
  obtain ⟨k, hk⟩ := List.mem_iff_getElem?.mp h180
  cases hm : argminAbs 180 lons with
  | none =>
    rw [argminAbs_eq_none_iff] at hm
    subst hm
    simp at hk
  | some p =>
    obtain ⟨i, m⟩ := p
    obtain ⟨⟨y, hy, hym⟩, hmin⟩ := argminAbs_spec 180 lons i m hm
    have hm0 : m ≤ 0 := by
      have h0 := hmin k 180 hk
      have : qabs ((180 : ℚ) - 180) = 0 := by norm_num [qabs]
      linarith [h0, this.symm ▸ h0]
    have hq0 : qabs (y - 180) = 0 := le_antisymm (hym ▸ hm0) (qabs_nonneg _)
    have hy180 : y = 180 := by
      have := qabs_eq_zero_iff.mp hq0
      linarith
    rw [shiftI0, hm]
    simpa [hy180] using hy

/-- The heart of the grid shift: on a strictly increasing grid in
`[0, 360)` that contains the point 180, `shiftgrid 180 … start=False`
produces longitudes inside `[-180, 180]`, and permutes the data columns
by exactly the index map of the longitude reindexing. -/
theorem shiftgrid_convention {A : Mat ℝ} {lons : List ℚ} {B : Mat ℝ}
    {L : List ℚ} (hs : List.Sorted (· < ·) lons)
    (hb : ∀ x ∈ lons, 0 ≤ x ∧ x < 360) (h180 : (180 : ℚ) ∈ lons)
    (h : shiftgrid 180 A lons = some (B, L)) :
    (∀ x ∈ L, -180 ≤ x ∧ x ≤ 180)
      ∧ ∃ f : Nat → Nat,
          (∀ j : Nat, j < L.length → ∃ x, lons[f j]? = some x ∧
            (L[j]? = some (x - 360) ∨ L[j]? = some x))
          ∧ ∀ (i j : Nat), j < L.length → mget B i j = mget A i (f j) := by
  have h1805 : lons[shiftI0 180 lons]? = some 180 := shiftI0_getElem_of_mem hs h180
  obtain ⟨hne, -, -, -, -, hL⟩ := shiftgrid_eq_some h
  have hstart : shiftStart lons ≤ 1 := by unfold shiftStart; split <;> simp
  have hi0 : shiftI0 180 lons < lons.length := shiftI0_lt_length 180 lons hne
  refine ⟨?_, shiftIdx (shiftStart lons) (shiftI0 180 lons) lons.length,
    fun j hj => shiftgrid_lon_getElem h j hj,
    fun i j hj => shiftgrid_data_mget h i j hj⟩
  intro x hx
  rw [hL, List.mem_append] at hx
  rcases hx with hx | hx
  · rw [List.mem_map] at hx
    obtain ⟨y, hy, rfl⟩ := hx
    obtain ⟨t, ht⟩ := List.mem_iff_getElem?.mp hy
    rw [List.getElem?_drop] at ht
    have h180y : (180 : ℚ) ≤ y :=
      sorted_getElem?_le hs h1805 ht (Nat.le_add_right _ _)
    have hyb := hb y (List.mem_iff_getElem?.mpr ⟨_, ht⟩)
    constructor <;> linarith [hyb.1, hyb.2]
  · obtain ⟨t, ht⟩ := List.mem_iff_getElem?.mp hx
    have htlt : t < shiftI0 180 lons := by
      have := (List.getElem?_eq_some_iff.mp ht).1
      rw [List.length_take] at this
      omega
    rw [List.getElem?_take, if_pos htlt, List.getElem?_drop] at ht
    have hxle : x ≤ 180 :=
      sorted_getElem?_le hs ht h1805 (by omega)
    have hxb := hb x (List.mem_iff_getElem?.mpr ⟨_, ht⟩)
    constructor <;> linarith [hxb.1]

/-- C3 counterexample to the claim as stated: the three-point global grid
`[0, 120, 240]` follows the 0–360° convention (strictly increasing,
inside `[0, 360)`), the GFS load succeeds on it, but the stored longitude
`-240` lies outside `[-180, 180]`: `np.argmin` picks 120 (the first grid
point nearest 180), so the wrapped block starts below 180 and is shifted
below −180. -/
theorem c3_claim_counterexample :
    lonConv0to360 [0, 120, 240]
      ∧ gfsLoad ⟨[0, 120, 240], [0], [[1, 1, 1]], [[1, 1, 1]]⟩
          = some ⟨[-240, -120, 0], [0],
              [[3.6 * Real.sqrt ((1 : ℝ) ^ 2), 3.6 * Real.sqrt ((1 : ℝ) ^ 2),
                3.6 * Real.sqrt ((1 : ℝ) ^ 2)]]⟩
      ∧ ¬ (∀ x ∈ ([-240, -120, 0] : List ℚ), -180 ≤ x ∧ x ≤ 180) := by
  refine ⟨⟨?_, ?_⟩, ?_, ?_⟩
  · norm_num [List.sorted_cons]
  · intro x hx
    simp only [List.mem_cons, List.not_mem_nil, or_false] at hx
    rcases hx with rfl | rfl | rfl <;> norm_num
  · norm_num [gfsLoad, gfsRawWindspeed, npSqrtOut, matShape, matSq, mapMat,
      mapSqrtMat, smulMat, shiftgrid, shiftStart, shiftI0, argminAbs, qabs]
  · intro hall
    have := (hall (-240) (by simp)).1
    linarith

/-- C3 (amended): for both loaders, when the source longitudes follow the
0–360° convention *and the grid contains the point 180*, the stored
longitudes all lie in `[-180, 180]` and the stored wind-speed columns are
permuted consistently with the longitude reindexing (same index map,
applied to the wind field computed just before the shift). -/
theorem c3_shift_convention :
    (∀ (src : GFSSource) (d : JSData) (W : Mat ℝ),
        lonConv0to360 src.lon → (180 : ℚ) ∈ src.lon →
        gfsLoad src = some d → gfsRawWindspeed src.u src.v = some W →
        lonConvPM180 d.lon ∧ shiftConsistent W src.lon d)
      ∧ ∀ (src : ERASource) (year : Int) (d : JSData) (W : Mat ℝ),
          lonConv0to360 src.lon → (180 : ℚ) ∈ src.lon →
          eraLoad src year = some d → eraSlice src year = some W →
          lonConvPM180 d.lon ∧ shiftConsistent W src.lon d := by
  constructor
  · intro src d W hconv h180 h hW
    obtain ⟨B, L, hraw, hg, rfl⟩ := gfsLoad_eq_some h
    have hWeq : W = smulMat 3.6 (mapSqrtMat (matSq src.u)) := by
      rw [hraw] at hW
      exact (Option.some.injEq _ _ ▸ hW).symm
    subst hWeq
    obtain ⟨hbound, f, hf1, hf2⟩ :=
      shiftgrid_convention hconv.1 hconv.2 h180 hg
    exact ⟨hbound, f, hf1, hf2⟩
  · intro src year d W hconv h180 h hW
    obtain ⟨wT, B, L, hs, hg, rfl⟩ := eraLoad_eq_some h
    have hWeq : W = wT := by
      rw [hs] at hW
      exact (Option.some.injEq _ _ ▸ hW).symm
    subst hWeq
    obtain ⟨hbound, f, hf1, hf2⟩ :=
      shiftgrid_convention hconv.1 hconv.2 h180 hg
    exact ⟨hbound, f, hf1, hf2⟩

/-- C3 witness: the amended theorem at the grid `[0, 180]`. -/
theorem c3_shift_convention_witness :
    lonConvPM180 (JSData.lon ⟨[-180, 0], [0],
        [[3.6 * Real.sqrt ((3 : ℝ) ^ 2), 3.6 * Real.sqrt ((3 : ℝ) ^ 2)]]⟩)
      ∧ shiftConsistent [[3.6 * Real.sqrt ((3 : ℝ) ^ 2),
            3.6 * Real.sqrt ((3 : ℝ) ^ 2)]] [0, 180]
          ⟨[-180, 0], [0],
            [[3.6 * Real.sqrt ((3 : ℝ) ^ 2), 3.6 * Real.sqrt ((3 : ℝ) ^ 2)]]⟩ := by
  refine (c3_shift_convention.1 ⟨[0, 180], [0], [[3, 3]], [[4, 4]]⟩
    ⟨[-180, 0], [0], [[3.6 * Real.sqrt ((3 : ℝ) ^ 2),
      3.6 * Real.sqrt ((3 : ℝ) ^ 2)]]⟩ _ ⟨?_, ?_⟩ (by norm_num) ?_ ?_)
  · norm_num [List.sorted_cons]
  · intro x hx
    simp only [List.mem_cons, List.not_mem_nil, or_false] at hx
    rcases hx with rfl | rfl <;> norm_num
  · norm_num [gfsLoad, gfsRawWindspeed, npSqrtOut, matShape, matSq, mapMat,
      mapSqrtMat, smulMat, shiftgrid, shiftStart, shiftI0, argminAbs, qabs]
  · norm_num [gfsRawWindspeed, npSqrtOut, matShape, matSq, mapMat,
      mapSqrtMat, smulMat]

/-- C10: the base class `JetStreamData` cannot be instantiated: its
`__init__` calls `self.load()` and no class in its MRO defines `load`, so
construction raises `AttributeError`; for both subclasses the same lookup
succeeds. -/
theorem c10_base_class_unconstructible :
    constructInit .jetStreamData = .error .attributeError
      ∧ (resolveMethod .gfsJetStreamData "load").isSome
      ∧ (resolveMethod .eraJetStreamData "load").isSome := by
  refine ⟨rfl, rfl, rfl⟩

end Jetstream
